import Mathlib

/-!
Verification of the agentic tool-use loops of the repository.

The embedding follows the Python sources:
  * `tools.py`                       : `call_claude_with_tools`, `execute_tool`
  * `component_level_eval.py`        : `process_tool_call`, `find_references`,
                                       `evaluate_tavily_results`, `TOP_DOMAINS`
  * `multi_agentic/campaign_pipeline.py` : `market_research_agent`
  * `multi_agentic/tools.py`         : `handle_tool_call`
  * `utils.py`                       : `truncate_text`

The external model endpoint (`client.messages.create`) is modelled as a
deterministic oracle `Oracle : List Message → ModelResponse`; the external
tool implementations (network / filesystem calls, and the `research_tools`
module which is not part of the repository) are parameters.  Python
exceptions are modelled with `Except String`, an `.error` value standing
for a raised exception carrying its message.
-/

set_option maxHeartbeats 1000000

/-- Python values as far as the tool plumbing inspects them: the dispatchers
only ever test `isinstance(result, str)` and otherwise hand the value to
`json.dumps`. -/
inductive PyVal where
  | str (s : String)
  | int (n : Int)
  | bool (b : Bool)
  | list (xs : List PyVal)

/-- `isinstance(result, str)` -/
def PyVal.isStr : PyVal → Bool
  | .str _ => true
  | _ => false

/-- JSON escaping of one character (the cases Python's `json.dumps` escapes
that occur in this development). -/
def jsonEscapeChar (c : Char) : List Char :=
  if c = '\\' then ['\\', '\\']
  else if c = '"' then ['\\', '"']
  else if c = '\n' then ['\\', 'n']
  else [c]

/-- JSON escaping of a string body. -/
def jsonEscape (s : String) : String :=
  String.mk (List.flatten (s.data.map jsonEscapeChar))

mutual

/-- `json.dumps` on the embedded Python values (default separators). -/
def json_dumps : PyVal → String
  | .str s => "\"" ++ jsonEscape s ++ "\""
  | .int n => toString n
  | .bool b => if b then "true" else "false"
  | .list xs => "[" ++ json_dumpsList xs ++ "]"

/-- `json.dumps` of the elements of a list, joined by `", "`. -/
def json_dumpsList : List PyVal → String
  | [] => ""
  | [x] => json_dumps x
  | x :: y :: xs => json_dumps x ++ ", " ++ json_dumpsList (y :: xs)

end

/-- The serialization step applied to a successful tool result before it is
stored in a tool-result block
(`json.dumps(result) if not isinstance(result, str) else result`,
`component_level_eval.py` line 105 and `campaign_pipeline.py` line 140). -/
def serialize_result : PyVal → String
  | .str s => s
  | v => json_dumps v

/-- A tool input: the keyword-argument dictionary of a tool request.  The
tools of this repository only receive string-valued parameters. -/
abbrev ToolInput := List (String × String)

/-- One content block of a model response: a text block or a
`tool_use` block (id, name, input). -/
inductive ContentBlock where
  | text (s : String)
  | tool_use (id : String) (name : String) (input : ToolInput)
  deriving DecidableEq

/-- A `tool_result` entry of a user turn
(`{"type": "tool_result", "tool_use_id": ..., "content": ...}`). -/
structure ToolResultBlock where
  tool_use_id : String
  content : String
  deriving DecidableEq

/-- The content of one message of the conversation: the seeded user prompt is
a plain string, an assistant turn carries the response's content blocks, and
a tool-result turn carries a list of `tool_result` entries. -/
inductive MessageContent where
  | text (s : String)
  | blocks (bs : List ContentBlock)
  | results (rs : List ToolResultBlock)
  deriving DecidableEq

/-- One message (`{"role": ..., "content": ...}`). -/
structure Message where
  role : String
  content : MessageContent
  deriving DecidableEq

/-- A model response: its `stop_reason` and its content blocks. -/
structure ModelResponse where
  stop_reason : String
  content : List ContentBlock
  deriving DecidableEq

/-- The model endpoint, as a deterministic function of the message list sent
to it (`client.messages.create(model=..., tools=..., messages=messages)`). -/
def Oracle : Type := List Message → ModelResponse

/-- The hypothesis of the bounded-termination claims: the endpoint answers
every request with `stop_reason = "tool_use"`. -/
def AlwaysToolUse (oracle : Oracle) : Prop :=
  ∀ msgs : List Message, (oracle msgs).stop_reason = "tool_use"

/-- The first `tool_use` block of a response's content, if any
(`for block in response.content: if block.type == "tool_use": ...; break`,
`tools.py` lines 65-69). -/
def findToolUse : List ContentBlock → Option (String × String × ToolInput)
  | [] => none
  | .text _ :: rest => findToolUse rest
  | .tool_use id name input :: _ => some (id, name, input)

/-- Concatenation of the text of all text blocks, in order
(`for block in response.content: if hasattr(block, "text"): final_text += block.text`). -/
def extract_text : List ContentBlock → String
  | [] => ""
  | .text s :: rest => s ++ extract_text rest
  | .tool_use _ _ _ :: rest => extract_text rest

/-- Whether a content block is a `tool_use` block. -/
def ContentBlock.isToolUse : ContentBlock → Bool
  | .tool_use _ _ _ => true
  | .text _ => false

/-- The ids of the `tool_use` blocks of an assistant turn, in order. -/
def requestIds : List ContentBlock → List String
  | [] => []
  | .text _ :: rest => requestIds rest
  | .tool_use id _ _ :: rest => id :: requestIds rest

/-- The ids answered by a tool-result batch, in order. -/
def resultIds (rs : List ToolResultBlock) : List String :=
  rs.map (fun r => r.tool_use_id)

/-- Python dict subscript `d[k]` on a keyword dictionary: the value when the
key is present, a raised `KeyError` otherwise. -/
def dictGet (d : ToolInput) (k : String) : Except String String :=
  match d.lookup k with
  | some v => Except.ok v
  | none => Except.error ("KeyError: " ++ k)

/-- The four local tool implementations dispatched by `execute_tool`
(`tools.py`).  They perform I/O; each is a parameter giving the outcome of
one invocation.  `get_current_time` always returns a string;
`get_weather_from_ip` catches internally and always returns a string;
`write_txt_file` and `generate_qr_code` may raise (file system / library
errors), modelled by `Except`. -/
structure ToolEnv where
  get_current_time : Unit → String
  get_weather_from_ip : Unit → String
  write_txt_file : String → String → Except String String
  generate_qr_code : String → String → String → Except String String

/-- `execute_tool` (`tools.py` lines 112-129).  The if/elif chain dispatches
on the name; the unknown-name branch returns the string
`"Unknown tool: {tool_name}"`.  There is no `try`/`except` in the source, so
a `KeyError` from a missing parameter (`tool_input["filename"]`) or an
exception raised by a tool implementation propagates to the caller. -/
def execute_tool (env : ToolEnv) (tool_name : String) (tool_input : ToolInput) :
    Except String String :=
  if tool_name = "get_current_time" then
    Except.ok (env.get_current_time ())
  else if tool_name = "get_weather_from_ip" then
    Except.ok (env.get_weather_from_ip ())
  else if tool_name = "write_txt_file" then do
    let filename ← dictGet tool_input "filename"
    let content ← dictGet tool_input "content"
    env.write_txt_file filename content
  else if tool_name = "generate_qr_code" then do
    let data ← dictGet tool_input "data"
    let filename ← dictGet tool_input "filename"
    let image_path ← dictGet tool_input "image_path"
    env.generate_qr_code data filename image_path
  else
    Except.ok ("Unknown tool: " ++ tool_name)

/-- The three research tool implementations dispatched by
`process_tool_call`.  They live in the `research_tools` module, which is not
part of the repository; each is a parameter giving the outcome of one
invocation (a Python value, or a raised exception). -/
structure ResearchTools where
  arxiv_search : ToolInput → Except String PyVal
  tavily_search : ToolInput → Except String PyVal
  wikipedia_search : ToolInput → Except String PyVal

/-- `process_tool_call` (`component_level_eval.py` lines 81-108).  The whole
dispatch is wrapped in `try`/`except Exception`: a raise from any tool is
converted to `"Tool error ({tool_name}): {message}"`; a successful
non-string result is serialized with `json.dumps`, a string result is
returned unchanged; an unknown name yields `"Unknown tool: {tool_name}"`. -/
def process_tool_call (rt : ResearchTools) (tool_name : String) (tool_input : ToolInput) :
    String :=
  let result : Except String PyVal :=
    if tool_name = "arxiv_search" then rt.arxiv_search tool_input
    else if tool_name = "tavily_search" then rt.tavily_search tool_input
    else if tool_name = "wikipedia_search" then rt.wikipedia_search tool_input
    else Except.ok (PyVal.str ("Unknown tool: " ++ tool_name))
  match result with
  | Except.ok v => serialize_result v
  | Except.error e => "Tool error (" ++ tool_name ++ "): " ++ e

/-- `handle_tool_call` (`multi_agentic/tools.py` lines 104-113), the
OpenAI-style dispatcher: `tools_map[function_name](**arguments)`.  The two
implementations are parameters; a name absent from `tools_map` raises a
`KeyError` (dict subscript), modelled as an `.error` outcome. -/
def handle_tool_call (tavily_search_tool : ToolInput → Except String PyVal)
    (product_catalog_tool : ToolInput → Except String PyVal)
    (function_name : String) (arguments : ToolInput) : Except String PyVal :=
  if function_name = "tavily_search_tool" then tavily_search_tool arguments
  else if function_name = "product_catalog_tool" then product_catalog_tool arguments
  else Except.error ("KeyError: " ++ function_name)

/-- The loop body of `call_claude_with_tools` (`tools.py` lines 51-109),
with the model endpoint and `execute_tool` as parameters.  The recursion
parameter is the remaining iteration budget (`max_iterations - iteration`).
Each entered iteration makes one model call; the third component counts the
model calls made.  On `stop_reason == "tool_use"` only the FIRST `tool_use`
block is executed; its result is stored with `str(...)` applied (identity on
the strings `execute_tool` returns); if no `tool_use` block exists nothing
is appended.  Otherwise the concatenated text is returned with the messages
built so far; when the budget runs out the sentinel is returned. -/
def call_claude_with_toolsAux (oracle : Oracle) (texec : String → ToolInput → String) :
    Nat → List Message → String × List Message × Nat
  | 0, messages => ("Max iterations reached", messages, 0)
  | fuel + 1, messages =>
    let response := oracle messages
    if response.stop_reason = "tool_use" then
      match findToolUse response.content with
      | some (id, name, input) =>
        let tool_result := texec name input
        let messages' := messages ++
          [⟨"assistant", MessageContent.blocks response.content⟩,
           ⟨"user", MessageContent.results [⟨id, tool_result⟩]⟩]
        let out := call_claude_with_toolsAux oracle texec fuel messages'
        (out.1, out.2.1, out.2.2 + 1)
      | none =>
        let out := call_claude_with_toolsAux oracle texec fuel messages
        (out.1, out.2.1, out.2.2 + 1)
    else
      (extract_text response.content, messages, 1)

/-- `call_claude_with_tools(prompt, tools_list, model, max_iterations)`:
seeds the conversation with the user prompt and runs the loop; returns
`(final_text, messages)`. -/
def call_claude_with_tools (oracle : Oracle) (texec : String → ToolInput → String)
    (prompt : String) (max_iterations : Nat) : String × List Message :=
  let out := call_claude_with_toolsAux oracle texec max_iterations
    [⟨"user", MessageContent.text prompt⟩]
  (out.1, out.2.1)

/-- Number of model calls a run of `call_claude_with_tools` makes. -/
def call_claude_model_calls (oracle : Oracle) (texec : String → ToolInput → String)
    (prompt : String) (max_iterations : Nat) : Nat :=
  (call_claude_with_toolsAux oracle texec max_iterations
    [⟨"user", MessageContent.text prompt⟩]).2.2

/-- The tool-result batch built from an assistant turn's content blocks:
one `tool_result` per `tool_use` block, in order, the content being the
dispatcher's (string) result (`component_level_eval.py` lines 166-179). -/
def tool_results_of (texec : String → ToolInput → String) :
    List ContentBlock → List ToolResultBlock
  | [] => []
  | .text _ :: rest => tool_results_of texec rest
  | .tool_use id name input :: rest =>
    ⟨id, texec name input⟩ :: tool_results_of texec rest

/-- The loop of `find_references` (`component_level_eval.py` lines 155-190):
`while response.stop_reason == "tool_use" and iteration < max_iterations`.
The recursion parameter is the remaining budget; each entered iteration
appends the assistant turn and the batch of ALL tool results (via
`process_tool_call`), then makes the next model call.  Returns the final
response, the messages, and the number of model calls made inside the
loop. -/
def find_referencesAux (oracle : Oracle) (rt : ResearchTools) :
    Nat → ModelResponse → List Message → ModelResponse × List Message × Nat
  | 0, response, messages => (response, messages, 0)
  | fuel + 1, response, messages =>
    if response.stop_reason = "tool_use" then
      let messages' := messages ++
        [⟨"assistant", MessageContent.blocks response.content⟩,
         ⟨"user", MessageContent.results
            (tool_results_of (process_tool_call rt) response.content)⟩]
      let response' := oracle messages'
      let out := find_referencesAux oracle rt fuel response' messages'
      (out.1, out.2.1, out.2.2 + 1)
    else
      (response, messages, 0)

/-- A Python return value that is either a bare string or a
`(content, messages)` pair — the two shapes `find_references` and
`market_research_agent` can return. -/
inductive PyReturn where
  | strOnly (s : String)
  | pair (s : String) (messages : List Message)
  deriving DecidableEq

/-- Whether a return value is the `(content, messages)` pair shape. -/
def PyReturn.is_pair : PyReturn → Bool
  | .pair _ _ => true
  | .strOnly _ => false

/-- `find_references(task, model, return_messages)`
(`component_level_eval.py` lines 115-198): seeds the conversation with the
built prompt (parameterised here, since the source interpolates the task and
the current date), makes one initial model call, runs the loop with the
hard-coded `max_iterations = 5`, and returns the concatenated text of the
final response — with the messages when `return_messages` is set.  The
second component counts all model calls made. -/
def find_references (oracle : Oracle) (rt : ResearchTools)
    (prompt : String) (return_messages : Bool) : PyReturn × Nat :=
  let messages : List Message := [⟨"user", MessageContent.text prompt⟩]
  let response := oracle messages
  let out := find_referencesAux oracle rt 5 response messages
  let content := extract_text out.1.content
  ((if return_messages then PyReturn.pair content out.2.1 else PyReturn.strOnly content),
   out.2.2 + 1)

/-- The tool-result batch built by `market_research_agent`
(`campaign_pipeline.py` lines 125-141): one `tool_result` per `tool_use`
block, in order, the content being
`json.dumps(result) if not isinstance(result, str) else result` applied to
`tools.handle_tool_call_claude(tool_name, tool_input)` (parameterised as
`texec`). -/
def market_tool_results (texec : String → ToolInput → PyVal) :
    List ContentBlock → List ToolResultBlock
  | [] => []
  | .text _ :: rest => market_tool_results texec rest
  | .tool_use id name input :: rest =>
    ⟨id, serialize_result (texec name input)⟩ :: market_tool_results texec rest

/-- The loop of `market_research_agent` (`campaign_pipeline.py` lines
102-158): `while iteration < max_iterations`, executing ALL `tool_use`
blocks of a tool-requesting response.  Returns `none` with the messages on
budget exhaustion, `some final_content` with the messages otherwise. -/
def market_research_agentAux (oracle : Oracle) (texec : String → ToolInput → PyVal) :
    Nat → List Message → Option String × List Message
  | 0, messages => (none, messages)
  | fuel + 1, messages =>
    let response := oracle messages
    if response.stop_reason = "tool_use" then
      let messages' := messages ++
        [⟨"assistant", MessageContent.blocks response.content⟩,
         ⟨"user", MessageContent.results (market_tool_results texec response.content)⟩]
      market_research_agentAux oracle texec fuel messages'
    else
      (some (extract_text response.content), messages)

/-- `market_research_agent(model, return_messages)` (`campaign_pipeline.py`
lines 56-158): runs the loop with the hard-coded `max_iterations = 10` on
the seeded prompt.  On a final answer it returns
`(final_content, messages) if return_messages else final_content`; on
exhaustion it returns the bare sentinel string
`"[⚠️ Max iterations reached]"` — without the messages, whatever
`return_messages` is. -/
def market_research_agent (oracle : Oracle) (texec : String → ToolInput → PyVal)
    (return_messages : Bool) (prompt : String) : PyReturn :=
  match market_research_agentAux oracle texec 10 [⟨"user", MessageContent.text prompt⟩] with
  | (some text, messages) =>
    if return_messages then PyReturn.pair text messages else PyReturn.strOnly text
  | (none, _) => PyReturn.strOnly "[⚠️ Max iterations reached]"

/-- The id of the first `tool_use` block of an assistant turn, if any. -/
def firstRequestId (bs : List ContentBlock) : Option String :=
  (findToolUse bs).map (fun t => t.1)

/-- One adjacency check of the turn-ordering invariant, parameterised by the
condition `ok` required of a (preceding assistant blocks, result batch)
pair; every other adjacency is vacuously fine. -/
def pairOKWith (ok : List ContentBlock → List ToolResultBlock → Bool)
    (a b : Message) : Bool :=
  match b.content with
  | .results rs =>
    if b.role = "user" then
      match a.content with
      | .blocks bs => if a.role = "assistant" then ok bs rs else true
      | _ => true
    else true
  | _ => true

/-- Chain-wise check of a condition on every adjacent pair of messages. -/
def checkBatchesWith (ok : List ContentBlock → List ToolResultBlock → Bool) :
    List Message → Bool
  | a :: b :: rest => pairOKWith ok a b && checkBatchesWith ok (b :: rest)
  | _ => true

/-- The turn-ordering invariant of the claim, stated from the spec's words:
every tool-result batch turn's result identifiers equal, as a list (hence as
a set and in order), the request identifiers of the immediately preceding
assistant turn. -/
def checkBatches : List Message → Bool :=
  checkBatchesWith (fun bs rs => decide (resultIds rs = requestIds bs))

/-- The invariant `call_claude_with_tools` actually maintains: every
tool-result batch turn is a single result answering the FIRST tool request
of the immediately preceding assistant turn. -/
def checkBatchesFirstOnly : List Message → Bool :=
  checkBatchesWith (fun bs rs => decide (resultIds rs = (firstRequestId bs).toList))

/-- `truncate_text(text, max_length)` (`utils.py` lines 54-67), on the
character sequence of the Python string (`text[:max_length]` is `take` for a
non-negative length). -/
def truncate_text (text : List Char) (max_length : Nat) : List Char :=
  if text.length ≤ max_length then text
  else text.take max_length ++ ['.', '.', '.']

/-- Whitespace for the purposes of the URL regex's `\s`
(Python's ASCII whitespace characters). -/
def pyWhitespace (c : Char) : Bool :=
  c = ' ' || c = '\t' || c = '\n' || c = '\r' || c = '\x0b' || c = '\x0c'

/-- A character ending a URL match: the complement of the character class
`[^\s\]\)>\}]` of the pattern in `evaluate_tavily_results`
(`component_level_eval.py` line 247). -/
def urlDelim (c : Char) : Bool :=
  pyWhitespace c || c = ']' || c = ')' || c = '>' || c = '\x7d'

/-- Case-insensitive match of a (lowercase) pattern against the front of a
list, returning the remainder on success (the pattern `https?://` is
compiled with `re.IGNORECASE`). -/
def ciMatch : List Char → List Char → Option (List Char)
  | [], l => some l
  | _ :: _, [] => none
  | p :: ps, c :: cs => if p = c.toLower then ciMatch ps cs else none

/-- Anchored match of the regex `https?://[^\s\]\)>\}]+` at the front of the
input: `https://` or `http://` case-insensitively (the optional greedy `s`
with backtracking reduces to exactly these two alternatives), followed by a
maximal non-empty run of non-delimiter characters.  Returns the matched text
(in original case) and the remainder. -/
def matchUrlAt (l : List Char) : Option (List Char × List Char) :=
  match ciMatch "https://".toList l with
  | some rest =>
    let run := rest.takeWhile (fun c => !urlDelim c)
    if run = [] then none else some (l.take 8 ++ run, rest.drop run.length)
  | none =>
    match ciMatch "http://".toList l with
    | some rest =>
      let run := rest.takeWhile (fun c => !urlDelim c)
      if run = [] then none else some (l.take 7 ++ run, rest.drop run.length)
    | none => none

/-- Left-to-right, non-overlapping scan of the input for matches of the URL
pattern (`re.findall` semantics).  The fuel equals the input length, which
bounds the number of scan steps since every step consumes at least one
character. -/
def findAllUrlsAux : Nat → List Char → List (List Char)
  | 0, _ => []
  | _ + 1, [] => []
  | fuel + 1, c :: rest =>
    match matchUrlAt (c :: rest) with
    | some (url, rem) => url :: findAllUrlsAux fuel rem
    | none => findAllUrlsAux fuel rest

/-- `url_pattern.findall(raw)` (`component_level_eval.py` lines 247-248). -/
def findAllUrls (raw : List Char) : List (List Char) :=
  findAllUrlsAux raw.length raw

/-- Python `url.split("/")`: split on every slash, keeping empty pieces. -/
def splitOnSlash : List Char → List (List Char)
  | [] => [[]]
  | c :: rest =>
    if c = '/' then [] :: splitOnSlash rest
    else
      match splitOnSlash rest with
      | [] => [[c]]
      | p :: ps => (c :: p) :: ps

/-- The domain part of a URL: `url.split("/")[2]`, falling back to the whole
URL on an `IndexError` (`component_level_eval.py` lines 262-265). -/
def extract_domain (url : List Char) : List Char :=
  (splitOnSlash url).getD 2 url

/-- Whether `small` occurs as a contiguous run inside `big`
(Python's `small in big` on strings). -/
def strContainsSub (small big : List Char) : Bool :=
  match big with
  | [] => small.isEmpty
  | _ :: rest => (small.isPrefixOf big) || strContainsSub small rest

/-- `any(td in domain for td in TOP_DOMAINS)`
(`component_level_eval.py` line 267). -/
def url_is_preferred (top_domains : List (List Char)) (url : List Char) : Bool :=
  top_domains.any (fun td => strContainsSub td (extract_domain url))

/-- `TOP_DOMAINS` (`component_level_eval.py` lines 209-225); the Python set
is iterated only through `any`, so a list is an adequate embedding. -/
def TOP_DOMAINS : List (List Char) :=
  [ "wikipedia.org".toList, "nature.com".toList, "science.org".toList,
    "sciencemag.org".toList, "cell.com".toList,
    "mit.edu".toList, "stanford.edu".toList, "harvard.edu".toList,
    "nasa.gov".toList, "noaa.gov".toList, "europa.eu".toList,
    "arxiv.org".toList, "acm.org".toList, "ieee.org".toList,
    "neurips.cc".toList, "icml.cc".toList, "openreview.net".toList,
    "elifesciences.org".toList, "pnas.org".toList, "jmlr.org".toList,
    "springer.com".toList, "sciencedirect.com".toList,
    "pbs.org".toList, "nova.edu".toList, "nvcc.edu".toList, "cccco.edu".toList,
    "codecademy.com".toList, "datacamp.com".toList ]

/-- The pass/fail flag computed by `evaluate_tavily_results`
(`component_level_eval.py` lines 228-287): `False` when no URL is found;
otherwise the fraction of extracted URLs whose domain contains a preferred
domain, compared against `min_ratio` (ratios as exact rationals).  The
accompanying markdown report, pure string formatting, is not modelled. -/
def evaluate_tavily_results_flag (top_domains : List (List Char)) (raw : List Char)
    (min_ratio : ℚ) : Bool :=
  let urls := findAllUrls raw
  if urls = [] then false
  else
    let total := urls.length
    let preferred_count := List.countP (fun u => url_is_preferred top_domains u) urls
    let ratio : ℚ := if total > 0 then (preferred_count : ℚ) / (total : ℚ) else 0
    decide (ratio ≥ min_ratio)

/-- A concrete endpoint that always requests one tool. -/
def oracle_tu : Oracle :=
  fun _ => ⟨"tool_use", [ContentBlock.tool_use "t1" "arxiv_search" []]⟩

/-- A concrete endpoint whose first response carries TWO tool requests and
whose second response is a final answer. -/
def oracle_two_requests : Oracle :=
  fun msgs =>
    if msgs.length ≤ 1 then
      ⟨"tool_use", [ContentBlock.tool_use "t1" "get_current_time" [],
                    ContentBlock.tool_use "t2" "get_weather_from_ip" []]⟩
    else ⟨"end_turn", [ContentBlock.text "done"]⟩

/-- A concrete endpoint that immediately answers with the text `"4"`. -/
def oracle_end4 : Oracle := fun _ => ⟨"end_turn", [ContentBlock.text "4"]⟩

/-- A concrete endpoint that immediately answers with the text `"done"`. -/
def oracle_end_done : Oracle := fun _ => ⟨"end_turn", [ContentBlock.text "done"]⟩

/-- A concrete endpoint claiming tool use while sending no `tool_use`
block. -/
def oracle_text_tu : Oracle := fun _ => ⟨"tool_use", [ContentBlock.text "hmm"]⟩

/-- A concrete string-valued tool executor. -/
def texec_const : String → ToolInput → String := fun _ _ => "r"

/-- A concrete value-valued tool executor. -/
def pyexec_const : String → ToolInput → PyVal := fun _ _ => PyVal.str "r"

/-- Concrete research tools that always succeed. -/
def rt_const : ResearchTools :=
  ⟨fun _ => Except.ok (PyVal.str "paper"),
   fun _ => Except.ok (PyVal.str "web"),
   fun _ => Except.ok (PyVal.str "wiki")⟩

/-- Concrete research tools whose `arxiv_search` raises. -/
def rt_fail : ResearchTools :=
  ⟨fun _ => Except.error "boom",
   fun _ => Except.ok (PyVal.str "web"),
   fun _ => Except.ok (PyVal.str "wiki")⟩

/-- A concrete tool environment whose implementations all succeed. -/
def env_ok : ToolEnv :=
  ⟨fun _ => "12:00:00", fun _ => "Weather in X: sunny",
   fun _ _ => Except.ok "ok", fun _ _ _ => Except.ok "ok"⟩

/-- A concrete tool environment whose `write_txt_file` raises. -/
def env_fail : ToolEnv :=
  ⟨fun _ => "12:00:00", fun _ => "Weather in X: sunny",
   fun _ _ => Except.error "PermissionError: denied", fun _ _ _ => Except.ok "ok"⟩

/-- A concrete `tavily_search_tool` implementation. -/
def tavily_const : ToolInput → Except String PyVal :=
  fun _ => Except.ok (PyVal.str "t")

/-- A concrete `product_catalog_tool` implementation. -/
def product_const : ToolInput → Except String PyVal :=
  fun _ => Except.ok (PyVal.str "p")

lemma call_claude_aux_exhaust (oracle : Oracle) (texec : String → ToolInput → String)
    (h : AlwaysToolUse oracle) :
    ∀ (k : Nat) (msgs : List Message),
      (call_claude_with_toolsAux oracle texec k msgs).1 = "Max iterations reached" ∧
      (call_claude_with_toolsAux oracle texec k msgs).2.2 = k := by
  intro k
  induction k with
  | zero => intro msgs; exact ⟨rfl, rfl⟩
  | succ n ih =>
    intro msgs
    have hs := h msgs
    rcases hfind : findToolUse (oracle msgs).content with _ | ⟨id, name, input⟩
    · simp only [call_claude_with_toolsAux, hs, if_true, hfind]
      exact ⟨(ih msgs).1, by rw [(ih msgs).2]⟩
    · simp only [call_claude_with_toolsAux, hs, if_true, hfind]
      refine ⟨(ih _).1, ?_⟩
      rw [(ih _).2]

lemma market_aux_exhaust (oracle : Oracle) (texec : String → ToolInput → PyVal)
    (h : AlwaysToolUse oracle) :
    ∀ (fuel : Nat) (msgs : List Message),
      (market_research_agentAux oracle texec fuel msgs).1 = none := by
  intro fuel
  induction fuel with
  | zero => intro msgs; rfl
  | succ n ih =>
    intro msgs
    simp only [market_research_agentAux, h msgs, if_true]
    exact ih _

lemma find_refs_aux_calls (oracle : Oracle) (rt : ResearchTools)
    (h : AlwaysToolUse oracle) :
    ∀ (fuel : Nat) (r : ModelResponse) (msgs : List Message),
      r.stop_reason = "tool_use" →
      (find_referencesAux oracle rt fuel r msgs).2.2 = fuel := by
  intro fuel
  induction fuel with
  | zero => intro r msgs _; rfl
  | succ n ih =>
    intro r msgs hr
    simp only [find_referencesAux, hr, if_true]
    rw [ih _ _ (h _)]

lemma resultIds_tool_results_of (texec : String → ToolInput → String) :
    ∀ bs : List ContentBlock, resultIds (tool_results_of texec bs) = requestIds bs := by
  intro bs
  induction bs with
  | nil => rfl
  | cons b rest ih =>
    cases b with
    | text s => simpa [tool_results_of, requestIds] using ih
    | tool_use id name input => simpa [tool_results_of, requestIds, resultIds] using ih

lemma resultIds_market_tool_results (texec : String → ToolInput → PyVal) :
    ∀ bs : List ContentBlock, resultIds (market_tool_results texec bs) = requestIds bs := by
  intro bs
  induction bs with
  | nil => rfl
  | cons b rest ih =>
    cases b with
    | text s => simpa [market_tool_results, requestIds] using ih
    | tool_use id name input =>
      simpa [market_tool_results, requestIds, resultIds] using ih

lemma pairOKWith_of_blocks (ok : List ContentBlock → List ToolResultBlock → Bool)
    (a : Message) (bs : List ContentBlock) :
    pairOKWith ok a ⟨"assistant", MessageContent.blocks bs⟩ = true := rfl

lemma pairOKWith_batch (ok : List ContentBlock → List ToolResultBlock → Bool)
    (bs : List ContentBlock) (rs : List ToolResultBlock) (hok : ok bs rs = true) :
    pairOKWith ok ⟨"assistant", MessageContent.blocks bs⟩
      ⟨"user", MessageContent.results rs⟩ = true := by
  simpa [pairOKWith] using hok

lemma checkBatchesWith_append_batch
    (ok : List ContentBlock → List ToolResultBlock → Bool)
    (bs : List ContentBlock) (rs : List ToolResultBlock) (hok : ok bs rs = true) :
    ∀ msgs : List Message, checkBatchesWith ok msgs = true →
      checkBatchesWith ok
        (msgs ++ [⟨"assistant", MessageContent.blocks bs⟩,
                  ⟨"user", MessageContent.results rs⟩]) = true := by
  intro msgs
  induction msgs with
  | nil =>
    intro _
    simp only [List.nil_append, checkBatchesWith, Bool.and_eq_true]
    exact ⟨pairOKWith_batch ok bs rs hok, trivial⟩
  | cons x tail ih =>
    intro hcb
    cases tail with
    | nil =>
      simp only [List.cons_append, List.nil_append, checkBatchesWith, Bool.and_eq_true]
      exact ⟨pairOKWith_of_blocks ok x bs, pairOKWith_batch ok bs rs hok, trivial⟩
    | cons y rest =>
      have h1 : pairOKWith ok x y = true := by
        have := hcb
        simp only [checkBatchesWith, Bool.and_eq_true] at this
        exact this.1
      have h2 : checkBatchesWith ok (y :: rest) = true := by
        have := hcb
        simp only [checkBatchesWith, Bool.and_eq_true] at this
        exact this.2
      have := ih h2
      simp only [List.cons_append] at this ⊢
      simp only [checkBatchesWith, Bool.and_eq_true]
      exact ⟨h1, by simpa using this⟩

lemma market_aux_batches (oracle : Oracle) (texec : String → ToolInput → PyVal) :
    ∀ (fuel : Nat) (msgs : List Message), checkBatches msgs = true →
      checkBatches (market_research_agentAux oracle texec fuel msgs).2 = true := by
  intro fuel
  induction fuel with
  | zero => intro msgs h; exact h
  | succ n ih =>
    intro msgs h
    by_cases hs : (oracle msgs).stop_reason = "tool_use"
    · simp only [market_research_agentAux, hs, if_true]
      apply ih
      unfold checkBatches at h ⊢
      exact checkBatchesWith_append_batch _ _ _
        (decide_eq_true (resultIds_market_tool_results texec _)) _ h
    · simp only [market_research_agentAux, if_neg hs]
      exact h

lemma findToolUse_eq_none (bs : List ContentBlock)
    (h : ∀ b ∈ bs, b.isToolUse = false) : findToolUse bs = none := by
  induction bs with
  | nil => rfl
  | cons b rest ih =>
    cases b with
    | text s => exact ih (fun x hx => h x (List.mem_cons_of_mem _ hx))
    | tool_use id name input =>
      have := h _ (List.mem_cons_self _ _)
      simp [ContentBlock.isToolUse] at this

lemma call_claude_aux_first (oracle : Oracle) (texec : String → ToolInput → String) :
    ∀ (fuel : Nat) (msgs : List Message), checkBatchesFirstOnly msgs = true →
      checkBatchesFirstOnly (call_claude_with_toolsAux oracle texec fuel msgs).2.1 = true := by
  intro fuel
  induction fuel with
  | zero => intro msgs h; exact h
  | succ n ih =>
    intro msgs h
    by_cases hs : (oracle msgs).stop_reason = "tool_use"
    · rcases hfind : findToolUse (oracle msgs).content with _ | ⟨id, name, input⟩
      · simp only [call_claude_with_toolsAux, hs, if_true, hfind]
        exact ih _ h
      · simp only [call_claude_with_toolsAux, hs, if_true, hfind]
        apply ih
        unfold checkBatchesFirstOnly at h ⊢
        apply checkBatchesWith_append_batch _ _ _ _ _ h
        simp [resultIds, firstRequestId, hfind]
    · simp only [call_claude_with_toolsAux, if_neg hs]
      exact h

lemma findAllUrlsAux_eq_nil : ∀ (fuel : Nat) (l : List Char),
    (∀ n : Nat, matchUrlAt (l.drop n) = none) → findAllUrlsAux fuel l = [] := by
  intro fuel
  induction fuel with
  | zero => intro l _; rfl
  | succ m ih =>
    intro l h
    cases l with
    | nil => rfl
    | cons c rest =>
      have h0 : matchUrlAt (c :: rest) = none := h 0
      simp only [findAllUrlsAux, h0]
      exact ih rest (fun n => h (n + 1))

/-- C1 (amended): if the model endpoint always responds with
`stop_reason = "tool_use"`, then `call_claude_with_tools` terminates after
making exactly `max_iterations = k` model calls and returns the
max-iterations sentinel, for every `k ≥ 0`; `find_references`, whose
`max_iterations` is hard-coded to 5 and which makes one model call before
its loop, terminates after exactly 6 model calls (not 5) and does not
return a sentinel. -/
theorem bounded_termination_amended :
    (∀ (oracle : Oracle) (texec : String → ToolInput → String)
        (prompt : String) (k : Nat),
      AlwaysToolUse oracle →
        (call_claude_with_tools oracle texec prompt k).1 = "Max iterations reached" ∧
        call_claude_model_calls oracle texec prompt k = k) ∧
    (∀ (oracle : Oracle) (rt : ResearchTools) (prompt : String)
        (return_messages : Bool),
      AlwaysToolUse oracle → (find_references oracle rt prompt return_messages).2 = 6) := by
  constructor
  · intro oracle texec prompt k h
    exact ⟨(call_claude_aux_exhaust oracle texec h k _).1,
           (call_claude_aux_exhaust oracle texec h k _).2⟩
  · intro oracle rt prompt return_messages h
    show (find_referencesAux oracle rt 5 _ _).2.2 + 1 = 6
    rw [find_refs_aux_calls oracle rt h 5 _ _ (h _)]

/-- C1 witness: a concrete always-tool-requesting endpoint, `k = 3`. -/
theorem bounded_termination_amended_witness :
    (call_claude_with_tools oracle_tu texec_const "p" 3).1 = "Max iterations reached" ∧
    call_claude_model_calls oracle_tu texec_const "p" 3 = 3 ∧
    (find_references oracle_tu rt_const "task2" true).2 = 6 := by
  have h : AlwaysToolUse oracle_tu := fun _ => rfl
  exact ⟨(bounded_termination_amended.1 oracle_tu texec_const "p" 3 h).1,
         (bounded_termination_amended.1 oracle_tu texec_const "p" 3 h).2,
         bounded_termination_amended.2 oracle_tu rt_const "task2" true h⟩

/-- C1 counterexample: with an endpoint that always requests tools,
`find_references` makes 6 model calls — not its `max_iterations = 5` — and
returns the concatenated text of its final tool-requesting response (the
empty string here), not an "iteration limit reached" sentinel. -/
theorem bounded_termination_counterexample :
    find_references oracle_tu rt_const "task" false = (PyReturn.strOnly "", 6) ∧
    (find_references oracle_tu rt_const "task" false).2 ≠ 5 := by
  constructor
  · rfl
  · decide

/-- C2 (amended): the turn-ordering invariant — every tool-result batch
turn's result identifiers equal, as a set and in order, the request
identifiers of the immediately preceding assistant turn — holds for
`market_research_agent`, which executes every request of a batch in order;
`call_claude_with_tools` instead appends a single-result batch answering
only the FIRST tool request of the preceding assistant turn (later requests
of the same turn are not executed). -/
theorem turn_ordering_invariant_amended :
    (∀ (oracle : Oracle) (texec : String → ToolInput → PyVal) (prompt s : String)
        (m : List Message),
      market_research_agent oracle texec true prompt = PyReturn.pair s m →
      checkBatches m = true) ∧
    (∀ (oracle : Oracle) (texec : String → ToolInput → String) (prompt : String)
        (k : Nat),
      checkBatchesFirstOnly (call_claude_with_tools oracle texec prompt k).2 = true) := by
  constructor
  · intro oracle texec prompt s m hm
    have hinv := market_aux_batches oracle texec 10
      [⟨"user", MessageContent.text prompt⟩] (by rfl)
    unfold market_research_agent at hm
    rcases haux : market_research_agentAux oracle texec 10
        [⟨"user", MessageContent.text prompt⟩] with ⟨o, msgs'⟩
    rw [haux] at hm hinv
    cases o with
    | some t =>
      simp only [if_true] at hm
      cases hm
      exact hinv
    | none => simp at hm
  · intro oracle texec prompt k
    exact call_claude_aux_first oracle texec k _ (by rfl)

/-- C2 witness: a directly-answering endpoint yields a conversation (the
seeded user turn) satisfying the invariant. -/
theorem turn_ordering_invariant_amended_witness :
    checkBatches [⟨"user", MessageContent.text "p"⟩] = true :=
  turn_ordering_invariant_amended.1 oracle_end_done pyexec_const "p" "done"
    [⟨"user", MessageContent.text "p"⟩] (by rfl)

/-- C2 counterexample: when the first response carries two tool requests,
`call_claude_with_tools` appends a batch with a single result, so the
batch's result ids do not equal the preceding assistant turn's request
ids. -/
theorem turn_ordering_invariant_counterexample :
    checkBatches (call_claude_with_tools oracle_two_requests texec_const "p" 5).2 =
      false := by decide

/-- C3 (amended): for a tool name `n` outside the respective dispatch
tables, `execute_tool` and `process_tool_call` return the plain string
`"Unknown tool: {n}"` (which contains `n`; no `is_error` flag is attached
anywhere by these dispatchers) and never raise; `handle_tool_call`, the
OpenAI-style dispatcher, instead raises a `KeyError` for names outside its
`tools_map`. -/
theorem unknown_tool_amended :
    ∀ (name : String) (input : ToolInput) (env : ToolEnv) (rt : ResearchTools)
      (tav prod : ToolInput → Except String PyVal),
      name ≠ "get_current_time" → name ≠ "get_weather_from_ip" →
      name ≠ "write_txt_file" → name ≠ "generate_qr_code" →
      name ≠ "arxiv_search" → name ≠ "tavily_search" → name ≠ "wikipedia_search" →
      name ≠ "tavily_search_tool" → name ≠ "product_catalog_tool" →
      execute_tool env name input = Except.ok ("Unknown tool: " ++ name) ∧
      process_tool_call rt name input = "Unknown tool: " ++ name ∧
      handle_tool_call tav prod name input = Except.error ("KeyError: " ++ name) := by
  intro name input env rt tav prod h1 h2 h3 h4 h5 h6 h7 h8 h9
  refine ⟨?_, ?_, ?_⟩
  · simp [execute_tool, h1, h2, h3, h4]
  · simp [process_tool_call, h5, h6, h7, serialize_result]
  · simp [handle_tool_call, h8, h9]

/-- C3 witness: the unknown name `"bogus"`. -/
theorem unknown_tool_amended_witness :
    execute_tool env_ok "bogus" [] = Except.ok "Unknown tool: bogus" ∧
    process_tool_call rt_const "bogus" [] = "Unknown tool: bogus" ∧
    handle_tool_call tavily_const product_const "bogus" [] =
      Except.error "KeyError: bogus" := by
  exact unknown_tool_amended "bogus" [] env_ok rt_const tavily_const product_const
    (by decide) (by decide) (by decide) (by decide) (by decide) (by decide)
    (by decide) (by decide) (by decide)

/-- C3 counterexample: `handle_tool_call` on the unknown name `"nope"`
raises (`tools_map[function_name]` is an unguarded dict subscript), instead
of returning an error `ToolResult` as the claim states. -/
theorem unknown_tool_counterexample :
    handle_tool_call tavily_const product_const "nope" [] =
      Except.error "KeyError: nope" := by rfl

/-- C4 (amended): `process_tool_call` wraps its whole dispatch in
`try`/`except` and converts any raise from a tool implementation to
`"Tool error ({name}): {message}"`, never propagating it; `execute_tool`
performs no such catching — an exception raised by a tool implementation
(or by the parameter lookup itself) propagates to the caller's loop. -/
theorem tool_exception_absorption_amended :
    (∀ (rt : ResearchTools) (input : ToolInput) (e : String),
      rt.arxiv_search input = Except.error e →
      process_tool_call rt "arxiv_search" input = "Tool error (arxiv_search): " ++ e) ∧
    (∀ (rt : ResearchTools) (input : ToolInput) (e : String),
      rt.tavily_search input = Except.error e →
      process_tool_call rt "tavily_search" input = "Tool error (tavily_search): " ++ e) ∧
    (∀ (rt : ResearchTools) (input : ToolInput) (e : String),
      rt.wikipedia_search input = Except.error e →
      process_tool_call rt "wikipedia_search" input =
        "Tool error (wikipedia_search): " ++ e) ∧
    (∀ (env : ToolEnv) (fn ct e : String),
      env.write_txt_file fn ct = Except.error e →
      execute_tool env "write_txt_file" [("filename", fn), ("content", ct)] =
        Except.error e) := by
  refine ⟨?_, ?_, ?_, ?_⟩
  · intro rt input e h; simp [process_tool_call, h]
  · intro rt input e h; simp [process_tool_call, h]
  · intro rt input e h; simp [process_tool_call, h]
  · intro env fn ct e h
    simp only [execute_tool, dictGet, List.lookup]
    exact h

/-- C4 witness: a raising `arxiv_search` and a raising `write_txt_file`. -/
theorem tool_exception_absorption_amended_witness :
    process_tool_call rt_fail "arxiv_search" [] = "Tool error (arxiv_search): boom" ∧
    execute_tool env_fail "write_txt_file" [("filename", "a.txt"), ("content", "hi")] =
      Except.error "PermissionError: denied" := by
  exact ⟨tool_exception_absorption_amended.1 rt_fail [] "boom" rfl,
         tool_exception_absorption_amended.2.2.2 env_fail "a.txt" "hi"
           "PermissionError: denied" rfl⟩

/-- C4 counterexample: `execute_tool` on a `write_txt_file` request with a
missing `filename` parameter raises a `KeyError` that propagates to the
agent loop, instead of the claimed caught-and-converted
`"Tool error (write_txt_file): ..."` result. -/
theorem tool_exception_counterexample :
    execute_tool env_ok "write_txt_file" [] =
      Except.error "KeyError: filename" := by rfl

/-- C5 (amended): when the iteration limit is reached while the model keeps
requesting tools, `call_claude_with_tools` returns the sentinel
`"Max iterations reached"` together with the partial conversation, as a
normal return value; `market_research_agent` returns the bare sentinel
string `"[⚠️ Max iterations reached]"` WITHOUT the conversation, even when
`return_messages` is set; `find_references` returns no sentinel at all — it
returns the concatenated text of its final (still tool-requesting) response
together with the conversation when `return_messages` is set. -/
theorem exhausted_outcome_amended :
    ∀ (oracle : Oracle) (texec : String → ToolInput → String)
      (pyexec : String → ToolInput → PyVal) (rt : ResearchTools)
      (prompt : String) (k : Nat),
      AlwaysToolUse oracle →
      (call_claude_with_tools oracle texec prompt k).1 = "Max iterations reached" ∧
      market_research_agent oracle pyexec true prompt =
        PyReturn.strOnly "[⚠️ Max iterations reached]" ∧
      (find_references oracle rt prompt true).1.is_pair = true := by
  intro oracle texec pyexec rt prompt k h
  refine ⟨(call_claude_aux_exhaust oracle texec h k _).1, ?_, ?_⟩
  · have hex := market_aux_exhaust oracle pyexec h 10
      [⟨"user", MessageContent.text prompt⟩]
    unfold market_research_agent
    rcases haux : market_research_agentAux oracle pyexec 10
        [⟨"user", MessageContent.text prompt⟩] with ⟨o, msgs'⟩
    rw [haux] at hex
    cases o with
    | some t => simp at hex
    | none => rfl
  · simp [find_references, PyReturn.is_pair]

/-- C5 witness: a concrete always-tool-requesting endpoint. -/
theorem exhausted_outcome_amended_witness :
    (call_claude_with_tools oracle_tu texec_const "w" 2).1 = "Max iterations reached" ∧
    market_research_agent oracle_tu pyexec_const true "w" =
      PyReturn.strOnly "[⚠️ Max iterations reached]" ∧
    (find_references oracle_tu rt_const "w" true).1.is_pair = true :=
  exhausted_outcome_amended oracle_tu texec_const pyexec_const rt_const "w" 2
    (fun _ => rfl)

/-- C5 counterexample: with an always-tool-requesting endpoint and
`return_messages=True`, `market_research_agent` returns the bare sentinel
string — not the sentinel together with the partial conversation as the
claim states. -/
theorem exhausted_outcome_counterexample :
    market_research_agent oracle_tu pyexec_const true "p" =
      PyReturn.strOnly "[⚠️ Max iterations reached]" := by rfl

/-- C6 (amended): if the model's first response is a non-tool-use
completion, `call_claude_with_tools` returns its concatenated text (so
`"4"` for scenario A) together with the conversation as of that moment,
which contains ONLY the seeded user turn (1 turn, not 2): the final
assistant turn is not appended before returning. -/
theorem direct_completion_amended :
    ∀ (oracle : Oracle) (texec : String → ToolInput → String) (prompt : String)
      (k : Nat),
      (oracle [⟨"user", MessageContent.text prompt⟩]).stop_reason ≠ "tool_use" →
      call_claude_with_tools oracle texec prompt (k + 1) =
        (extract_text (oracle [⟨"user", MessageContent.text prompt⟩]).content,
         [⟨"user", MessageContent.text prompt⟩]) := by
  intro oracle texec prompt k h
  simp [call_claude_with_tools, call_claude_with_toolsAux, h]

/-- C6 witness: scenario A with a different prompt and budget. -/
theorem direct_completion_amended_witness :
    call_claude_with_tools oracle_end4 texec_const "q" 4 =
      ("4", [⟨"user", MessageContent.text "q"⟩]) := by
  have := direct_completion_amended oracle_end4 texec_const "q" 3 (by decide)
  exact this

/-- C6 counterexample: scenario A —
`run("what is 2+2", empty_registry, 5)` returns `("4", conversation)`, but
the conversation has 1 turn (the seeded user turn), not the claimed 2. -/
theorem direct_completion_counterexample :
    call_claude_with_tools oracle_end4 texec_const "what is 2+2" 5 =
      ("4", [⟨"user", MessageContent.text "what is 2+2"⟩]) ∧
    (call_claude_with_tools oracle_end4 texec_const "what is 2+2" 5).2.length ≠ 2 := by
  constructor
  · rfl
  · decide

/-- C7 (confirmed): the serialization step applied to every successful tool
result passes string values through unchanged and encodes every non-string
value with `json.dumps`; `process_tool_call` stores exactly this
serialization of a successful tool return value. -/
theorem result_serialization :
    (∀ s : String, serialize_result (PyVal.str s) = s) ∧
    (∀ v : PyVal, v.isStr = false → serialize_result v = json_dumps v) ∧
    (∀ (rt : ResearchTools) (input : ToolInput) (v : PyVal),
      rt.arxiv_search input = Except.ok v →
      process_tool_call rt "arxiv_search" input = serialize_result v) := by
  refine ⟨fun s => rfl, ?_, ?_⟩
  · intro v hv
    cases v with
    | str s => simp [PyVal.isStr] at hv
    | int n => rfl
    | bool b => rfl
    | list xs => rfl
  · intro rt input v h
    simp [process_tool_call, h]

/-- C7 witness: a boolean result is JSON-encoded. -/
theorem result_serialization_witness :
    serialize_result (PyVal.bool true) = json_dumps (PyVal.bool true) :=
  result_serialization.2.1 (PyVal.bool true) rfl

/-- C8 (confirmed): when a response has `stop_reason = "tool_use"` but no
`tool_use` content block, the iteration of `call_claude_with_tools` appends
nothing: the rest of the run proceeds from the unchanged message list (the
returned text and conversation are those of the run with one fewer
remaining iteration), and only the iteration counter advances (one more
model call is counted). -/
theorem no_tool_use_block_frame :
    ∀ (oracle : Oracle) (texec : String → ToolInput → String) (fuel : Nat)
      (msgs : List Message),
      (oracle msgs).stop_reason = "tool_use" →
      (∀ b ∈ (oracle msgs).content, b.isToolUse = false) →
      call_claude_with_toolsAux oracle texec (fuel + 1) msgs =
        ((call_claude_with_toolsAux oracle texec fuel msgs).1,
         (call_claude_with_toolsAux oracle texec fuel msgs).2.1,
         (call_claude_with_toolsAux oracle texec fuel msgs).2.2 + 1) := by
  intro oracle texec fuel msgs hs hb
  have hfind := findToolUse_eq_none _ hb
  simp only [call_claude_with_toolsAux, hs, if_true, hfind]

/-- C8 witness: a concrete tool-use response carrying only a text block. -/
theorem no_tool_use_block_frame_witness :
    call_claude_with_toolsAux oracle_text_tu texec_const 1
        [⟨"user", MessageContent.text "x"⟩] =
      ((call_claude_with_toolsAux oracle_text_tu texec_const 0
          [⟨"user", MessageContent.text "x"⟩]).1,
       (call_claude_with_toolsAux oracle_text_tu texec_const 0
          [⟨"user", MessageContent.text "x"⟩]).2.1,
       (call_claude_with_toolsAux oracle_text_tu texec_const 0
          [⟨"user", MessageContent.text "x"⟩]).2.2 + 1) :=
  no_tool_use_block_frame oracle_text_tu texec_const 0
    [⟨"user", MessageContent.text "x"⟩] rfl (by decide)

/-- C9 (confirmed): `evaluate_tavily_results` returns flag `False` for every
input in which the URL pattern matches at no position; when at least one URL
is extracted, the flag is `True` if and only if the fraction of extracted
URLs whose domain part contains some preferred domain is at least
`min_ratio`.  The embedding is a total function — mirroring the source,
whose only possible raise (the `IndexError` of the domain split) is caught
by its `try`/`except` — so no exception escapes. -/
theorem evaluate_tavily_postcondition :
    ∀ (top_domains : List (List Char)) (raw : List Char) (min_ratio : ℚ),
      ((∀ n < raw.length, matchUrlAt (raw.drop n) = none) →
        evaluate_tavily_results_flag top_domains raw min_ratio = false) ∧
      (findAllUrls raw ≠ [] →
        (evaluate_tavily_results_flag top_domains raw min_ratio = true ↔
          ((List.countP (fun u => url_is_preferred top_domains u)
              (findAllUrls raw) : ℚ) /
            ((findAllUrls raw).length : ℚ) ≥ min_ratio))) := by
  intro TD raw r
  constructor
  · intro h
    have hnil : findAllUrls raw = [] := by
      show findAllUrlsAux raw.length raw = []
      apply findAllUrlsAux_eq_nil
      intro n
      by_cases hn : n < raw.length
      · exact h n hn
      · rw [List.drop_eq_nil_of_le (le_of_not_lt hn)]
        rfl
    simp [evaluate_tavily_results_flag, hnil]
  · intro hne
    have hpos : (findAllUrls raw).length > 0 := List.length_pos.mpr hne
    simp only [evaluate_tavily_results_flag, if_neg hne, if_pos hpos]
    exact decide_eq_true_iff

/-- C9 witness: a text with no URL in it fails the evaluation. -/
theorem evaluate_tavily_postcondition_witness :
    evaluate_tavily_results_flag TOP_DOMAINS "no links here".toList (2 / 5 : ℚ) =
      false := by
  apply (evaluate_tavily_postcondition TOP_DOMAINS "no links here".toList (2 / 5)).1
  decide

/-- C10 (amended): `truncate_text` returns `text` unchanged whenever
`len(text) ≤ max_length`, and otherwise returns the first `max_length`
characters of `text` followed by `"..."`; in both cases the result's length
never exceeds `max_length + 3`.  (The claim's "exactly when" fails: for a
long `text` that itself ends in `"..."` the truncated result can equal
`text`.) -/
theorem truncate_text_amended :
    ∀ (text : List Char) (max_length : Nat),
      (text.length ≤ max_length → truncate_text text max_length = text) ∧
      (¬ text.length ≤ max_length →
        truncate_text text max_length = text.take max_length ++ ['.', '.', '.']) ∧
      (truncate_text text max_length).length ≤ max_length + 3 := by
  intro text max_length
  refine ⟨?_, ?_, ?_⟩
  · intro h; simp [truncate_text, h]
  · intro h; simp [truncate_text, h]
  · by_cases h : text.length ≤ max_length
    · simp only [truncate_text, if_pos h]
      omega
    · simp only [truncate_text, if_neg h, List.length_append, List.length_take,
        List.length_cons, List.length_nil]
      omega

/-- C10 witness: a short text is returned unchanged. -/
theorem truncate_text_amended_witness :
    truncate_text "hi".toList 5 = "hi".toList :=
  (truncate_text_amended "hi".toList 5).1 (by decide)

/-- C10 counterexample: `truncate_text("ab...", 2)` returns the input text
itself although its length 5 exceeds `max_length = 2`, refuting the
"exactly when" (if-and-only-if) reading of the claim. -/
theorem truncate_text_counterexample :
    truncate_text "ab...".toList 2 = "ab...".toList ∧
    ¬("ab...".toList.length ≤ 2) := by
  constructor
  · rfl
  · decide
